import Mathlib

/-!
Shallow embedding of the Plant-Monitoring frontend core
(`src/components/TemperatureChart.tsx`, `src/services/signalRService.ts`,
`src/services/apiService.ts`).  Timestamps are integer milliseconds since
epoch; temperature values and zoom-span ratios are modelled as rationals.
-/

/-- `interface TemperatureDataPoint { timestamp: number; temperature: number }`
from TemperatureChart.tsx. -/
structure TemperatureDataPoint where
  timestamp : Int
  temperature : ℚ
deriving DecidableEq, Repr

/-- The shape of the `SPIKE_CONFIG` constant in TemperatureChart.tsx. -/
structure SpikeConfig where
  upperThreshold : ℚ
  lowerThreshold : ℚ
  upperColor : String
  lowerColor : String
  enabled : Bool
deriving DecidableEq, Repr

/-- The `SPIKE_CONFIG` constant of TemperatureChart.tsx. -/
def SPIKE_CONFIG : SpikeConfig :=
  { upperThreshold := 5
    lowerThreshold := -5
    upperColor := "#e74c3c"
    lowerColor := "#3498db"
    enabled := true }

/-- One step of the `data.forEach` loop in `detectSpikes`: push the point onto
`upperSpikes` when `temperature > upperThreshold`, else onto `lowerSpikes` when
`temperature < lowerThreshold`, else onto neither. -/
def detectSpikesStep (cfg : SpikeConfig)
    (acc : List TemperatureDataPoint × List TemperatureDataPoint)
    (point : TemperatureDataPoint) :
    List TemperatureDataPoint × List TemperatureDataPoint :=
  if point.temperature > cfg.upperThreshold then (acc.1 ++ [point], acc.2)
  else if point.temperature < cfg.lowerThreshold then (acc.1, acc.2 ++ [point])
  else acc

/-- `detectSpikes` of TemperatureChart.tsx, parameterised by the configuration
record it reads (the component always passes `SPIKE_CONFIG`).  Returns
`(upperSpikes, lowerSpikes)`. -/
def detectSpikesWith (cfg : SpikeConfig) (data : List TemperatureDataPoint) :
    List TemperatureDataPoint × List TemperatureDataPoint :=
  if !cfg.enabled then ([], [])
  else data.foldl (detectSpikesStep cfg) ([], [])

/-- `detectSpikes` as the component calls it: against `SPIKE_CONFIG`. -/
def detectSpikes (data : List TemperatureDataPoint) :
    List TemperatureDataPoint × List TemperatureDataPoint :=
  detectSpikesWith SPIKE_CONFIG data

/-- The `ZOOM_LEVELS` table of TemperatureChart.tsx, in the order its entries
are written (ascending by threshold), as `(threshold, label)` pairs. -/
def ZOOM_LEVELS : List (ℚ × String) :=
  [(0.005, "1 Second"),
   (0.02, "30 Seconds"),
   (0.05, "1 Minute"),
   (0.1, "5 Minutes"),
   (0.2, "15 Minutes"),
   (0.3, "30 Minutes"),
   (0.5, "1 Hour"),
   (0.7, "4 Hours"),
   (0.85, "12 Hours"),
   (0.95, "1 Day")]

/-- The `for (const [threshold, level] of Object.entries(ZOOM_LEVELS))` loop of
`getZoomLevel`: return the first `level` with `zoomRange <= threshold`, else
fall through to the final return. -/
def getZoomLevelAux : List (ℚ × String) → ℚ → String
  | [], _ => "1 Week"
  | entry :: rest, zoomRange =>
    if zoomRange ≤ entry.1 then entry.2 else getZoomLevelAux rest zoomRange

/-- `getZoomLevel` of TemperatureChart.tsx. -/
def getZoomLevel (zoomRange : ℚ) : String :=
  getZoomLevelAux ZOOM_LEVELS zoomRange

/-- Spec-side restatement of the classifier (§4.2 of the spec): the label of
the first table entry whose ceiling is ≥ the ratio, or the catch-all coarse
label when no entry matches.  Used only to compare with `getZoomLevel`. -/
def zoomLevelSpec (spanRatio : ℚ) : String :=
  ((ZOOM_LEVELS.find? fun entry => spanRatio ≤ entry.1).map Prod.snd).getD "1 Week"

/-- Index of the table entry `getZoomLevel` answers from (`ZOOM_LEVELS.length`
for the catch-all), used to compare granularity fineness: smaller index means
finer granularity. -/
def zoomIdxAux : List (ℚ × String) → ℚ → Nat
  | [], _ => 0
  | entry :: rest, zoomRange =>
    if zoomRange ≤ entry.1 then 0 else zoomIdxAux rest zoomRange + 1

/-- Fineness index of the level `getZoomLevel` chooses. -/
def zoomIdx (zoomRange : ℚ) : Nat :=
  zoomIdxAux ZOOM_LEVELS zoomRange

/-- The buffer mutation of `updateChartData` in TemperatureChart.tsx:
`dataRef.current = [...dataRef.current, newPoint]` — a plain tail append of the
freshly built point, with no sorting, deduplication or trimming. -/
def updateChartData (data : List TemperatureDataPoint)
    (newPoint : TemperatureDataPoint) : List TemperatureDataPoint :=
  data ++ [newPoint]

/-- The two operations that write `dataRef.current` in TemperatureChart.tsx:
the mount effect `dataRef.current = generateDummyData()` (historical ingest,
replacing the buffer with the generated chunk) and the interval-driven
`updateChartData` (live append). -/
inductive BufferOp where
  | ingestHistorical (chunk : List TemperatureDataPoint)
  | appendLive (newPoint : TemperatureDataPoint)
deriving DecidableEq, Repr

/-- Effect of one buffer operation on `dataRef.current`. -/
def applyBufferOp (data : List TemperatureDataPoint) :
    BufferOp → List TemperatureDataPoint
  | .ingestHistorical chunk => chunk
  | .appendLive newPoint => updateChartData data newPoint

/-- The buffer after a sequence of operations applied to an initially empty
`dataRef.current`. -/
def runBufferOps (ops : List BufferOp) : List TemperatureDataPoint :=
  ops.foldl applyBufferOp []

/-- Strict ascending order of timestamps, the buffer invariant claimed by the
spec (no two points share a timestamp). -/
def StrictlySortedByTimestamp (data : List TemperatureDataPoint) : Prop :=
  data.Pairwise fun a b => a.timestamp < b.timestamp

instance (data : List TemperatureDataPoint) :
    Decidable (StrictlySortedByTimestamp data) := by
  unfold StrictlySortedByTimestamp; infer_instance

/-- The buffer produced by `n` timer ticks of `updateChartData` starting from
an empty buffer, each tick appending the point built from `Date.now()` (one
tick per second, so timestamps advance by 1000 ms). -/
def bufferAfterUpdates : Nat → List TemperatureDataPoint
  | 0 => []
  | n + 1 =>
    updateChartData (bufferAfterUpdates n) ⟨1000 * (n + 1), 0⟩

/-- `interface PlantTemperatureData { timestamp: number; temperature: number }`
from signalRService.ts (the point shape of apiService.ts as well). -/
structure PlantTemperatureData where
  timestamp : Int
  temperature : ℚ
deriving DecidableEq, Repr

/-- A `fetch` invocation as apiService.ts issues it: the request URL, and the
`AbortSignal` attached through the init argument when one is supplied
(`fetch(url)` with no init carries none, so nothing external can abort it). -/
structure FetchRequest where
  url : String
  signal : Option Nat
deriving DecidableEq, Repr

/-- The part of a `fetch` response that `getHistoricalTemperatureData` reads:
`response.ok`, `response.status`, and the `data` array of the decoded
`HistoricalTemperatureResponse` body. -/
structure FetchResponse where
  ok : Bool
  status : Nat
  data : List PlantTemperatureData
deriving DecidableEq, Repr

/-- The literal fallback of `import.meta.env.VITE_BACKEND_URL` in
apiService.ts (the `baseUrl` field of the `ApiService` instance). -/
def baseUrl : String := "http://localhost:5142"

/-- The one request `getHistoricalTemperatureData` issues:
`fetch` of the fixed historical endpoint — a fixed URL carrying no
range or granularity parameters, with no `AbortSignal`. -/
def historicalRequest : FetchRequest :=
  { url := baseUrl ++ "/api/temperature/historical", signal := none }

/-- Response handling of `getHistoricalTemperatureData` in apiService.ts:
throw on `!response.ok`, otherwise return the `data` array of the decoded body. -/
def getHistoricalTemperatureData (response : FetchResponse) :
    Except String (List PlantTemperatureData) :=
  if !response.ok then
    Except.error ("HTTP error! status: " ++ toString response.status)
  else
    Except.ok response.data

/-- Whether an external abort through signal `sig` interrupts request `req`
(the fetch API aborts a request only when the request carries that signal). -/
def abortAffects (req : FetchRequest) (sig : Nat) : Bool :=
  req.signal == some sig

/-- Events of a fetch trace: a request is issued (identified by issuance
order), or the response of a pending request arrives. -/
inductive FetchEvent where
  | issue (id : Nat)
  | complete (id : Nat) (response : FetchResponse)
deriving DecidableEq, Repr

/-- The responses a caller of `getHistoricalTemperatureData` receives and
applies, in arrival order.  Modelled from apiService.ts: the service keeps no
pending-request state and attaches no `AbortSignal`, so every arriving
response is handled by `getHistoricalTemperatureData` on its own and every
successful one is delivered to its caller, regardless of any newer request. -/
def appliedResponses : List FetchEvent → List (Nat × List PlantTemperatureData)
  | [] => []
  | .issue _ :: rest => appliedResponses rest
  | .complete id response :: rest =>
    match getHistoricalTemperatureData response with
    | .ok d => (id, d) :: appliedResponses rest
    | .error _ => appliedResponses rest

/-- `signalR.HubConnectionState`, restricted to the values signalRService.ts
distinguishes. -/
inductive HubConnectionState where
  | Disconnected
  | Connected
deriving DecidableEq, Repr

/-- The mutable state of the `SignalRService` class: the state of the connection,
how many `ReceivePlantTemperature` handlers have been registered on it via
`connection.on`, and the `listeners` set (callbacks identified by number; a
`Set`, so kept duplicate-free). -/
structure SignalRServiceState where
  connState : HubConnectionState
  handlers : Nat
  listeners : List Nat
deriving DecidableEq, Repr

/-- The freshly constructed service: connection built but not started, no
handler registered, empty `listeners` set. -/
def signalRServiceInit : SignalRServiceState :=
  { connState := .Disconnected, handlers := 0, listeners := [] }

/-- `startConnection` of signalRService.ts: return immediately when the
connection is already `Connected`; otherwise `await this.connection.start()` —
on success register the `ReceivePlantTemperature` handler that forwards each
received point to every listener, on failure rethrow with the state
unchanged (the `.on` registration is never reached). -/
def startConnection (startSucceeds : Bool) (s : SignalRServiceState) :
    SignalRServiceState :=
  if s.connState = HubConnectionState.Connected then s
  else if startSucceeds then
    { s with connState := .Connected, handlers := s.handlers + 1 }
  else s

/-- `onPlantTemperatureReceived` of signalRService.ts:
`this.listeners.add(callback)` — a no-op when the callback is already in the
set. -/
def onPlantTemperatureReceived (callback : Nat) (s : SignalRServiceState) :
    SignalRServiceState :=
  if callback ∈ s.listeners then s
  else { s with listeners := s.listeners ++ [callback] }

/-- `removeListener` of signalRService.ts: `this.listeners.delete(callback)`. -/
def removeListener (callback : Nat) (s : SignalRServiceState) :
    SignalRServiceState :=
  { s with listeners := s.listeners.erase callback }

/-- The public operations of the `SignalRService` class: `startConnection`
(with the outcome of `connection.start()`), `onPlantTemperatureReceived`, and
`removeListener`.  The class exposes nothing else. -/
inductive SignalROp where
  | start (startSucceeds : Bool)
  | addListener (callback : Nat)
  | dropListener (callback : Nat)
deriving DecidableEq, Repr

/-- Effect of one public operation on the service state. -/
def applySignalROp (s : SignalRServiceState) : SignalROp → SignalRServiceState
  | .start b => startConnection b s
  | .addListener callback => onPlantTemperatureReceived callback s
  | .dropListener callback => removeListener callback s

/-- Service state after a sequence of public operations on the freshly
constructed service. -/
def runSignalROps (ops : List SignalROp) : SignalRServiceState :=
  ops.foldl applySignalROp signalRServiceInit

/-- How many times callback `cb` is invoked when one `ReceivePlantTemperature`
message arrives in state `s`: each registered handler runs
`this.listeners.forEach(listener => listener(data))`, so `cb` fires once per
handler per occurrence of `cb` in the listeners set. -/
def deliveriesTo (s : SignalRServiceState) (cb : Nat) : Nat :=
  s.handlers * s.listeners.count cb

/-- Bool form of the `upperSpikes` membership test of `detectSpikes`. -/
def isUpperSpike (cfg : SpikeConfig) (p : TemperatureDataPoint) : Bool :=
  p.temperature > cfg.upperThreshold

/-- Bool form of the `lowerSpikes` membership test of `detectSpikes` (the
`else if` branch: not an upper spike, and below the lower threshold). -/
def isLowerSpike (cfg : SpikeConfig) (p : TemperatureDataPoint) : Bool :=
  !(p.temperature > cfg.upperThreshold) && p.temperature < cfg.lowerThreshold

theorem foldl_detectSpikesStep (cfg : SpikeConfig)
    (data : List TemperatureDataPoint) :
    ∀ u l : List TemperatureDataPoint,
      data.foldl (detectSpikesStep cfg) (u, l) =
        (u ++ data.filter (isUpperSpike cfg), l ++ data.filter (isLowerSpike cfg)) := by
  induction data with
  | nil => simp
  | cons p rest ih =>
    intro u l
    by_cases hu : p.temperature > cfg.upperThreshold
    · simp [detectSpikesStep, isUpperSpike, isLowerSpike, hu, ih, List.filter_cons]
    · by_cases hl : p.temperature < cfg.lowerThreshold
      · simp [detectSpikesStep, isUpperSpike, isLowerSpike, hu, hl, ih, List.filter_cons]
      · simp [detectSpikesStep, isUpperSpike, isLowerSpike, hu, hl, ih, List.filter_cons]

theorem detectSpikesWith_eq_filter (cfg : SpikeConfig) (h : cfg.enabled = true)
    (data : List TemperatureDataPoint) :
    detectSpikesWith cfg data =
      (data.filter (isUpperSpike cfg), data.filter (isLowerSpike cfg)) := by
  simp [detectSpikesWith, h, foldl_detectSpikesStep]

theorem detectSpikes_eq_filter (data : List TemperatureDataPoint) :
    detectSpikes data =
      (data.filter (isUpperSpike SPIKE_CONFIG),
       data.filter (isLowerSpike SPIKE_CONFIG)) :=
  detectSpikesWith_eq_filter SPIKE_CONFIG rfl data

theorem mem_upperSpikes_iff (data : List TemperatureDataPoint)
    (p : TemperatureDataPoint) :
    p ∈ (detectSpikes data).1 ↔ p ∈ data ∧ p.temperature > 5 := by
  rw [detectSpikes_eq_filter]
  simp [List.mem_filter, isUpperSpike, SPIKE_CONFIG]

theorem mem_lowerSpikes_iff (data : List TemperatureDataPoint)
    (p : TemperatureDataPoint) :
    p ∈ (detectSpikes data).2 ↔ p ∈ data ∧ p.temperature < -5 := by
  rw [detectSpikes_eq_filter]
  simp only [List.mem_filter, isLowerSpike, SPIKE_CONFIG,
    Bool.and_eq_true, Bool.not_eq_true', decide_eq_false_iff_not,
    decide_eq_true_eq]
  constructor
  · rintro ⟨hm, _, hl⟩; exact ⟨hm, hl⟩
  · rintro ⟨hm, hl⟩; exact ⟨hm, by push_neg; linarith, hl⟩

/-- C4: a point is in `upperSpikes` iff its value is strictly above the upper
threshold (5), in `lowerSpikes` iff strictly below the lower threshold (-5);
no point is in both; with spike detection disabled `detectSpikes` returns two
empty series; and the point `{timestamp: 10000, value: 12}` is placed in
`upperSpikes`. -/
theorem detectSpikes_classification :
    (∀ (data : List TemperatureDataPoint) (p : TemperatureDataPoint),
       p ∈ (detectSpikes data).1 ↔ p ∈ data ∧ p.temperature > 5)
  ∧ (∀ (data : List TemperatureDataPoint) (p : TemperatureDataPoint),
       p ∈ (detectSpikes data).2 ↔ p ∈ data ∧ p.temperature < -5)
  ∧ (∀ (data : List TemperatureDataPoint) (p : TemperatureDataPoint),
       ¬ (p ∈ (detectSpikes data).1 ∧ p ∈ (detectSpikes data).2))
  ∧ (∀ cfg : SpikeConfig, cfg.enabled = false →
       ∀ data : List TemperatureDataPoint, detectSpikesWith cfg data = ([], []))
  ∧ (detectSpikes [⟨10000, 12⟩]).1 = [⟨10000, 12⟩] := by
  refine ⟨mem_upperSpikes_iff, mem_lowerSpikes_iff, ?_, ?_, ?_⟩
  · intro data p ⟨h1, h2⟩
    have hu := (mem_upperSpikes_iff data p).mp h1
    have hl := (mem_lowerSpikes_iff data p).mp h2
    linarith [hu.2, hl.2]
  · intro cfg hcfg data
    simp [detectSpikesWith, hcfg]
  · decide

/-- Witness for C4 at concrete inputs: a disabled configuration yields two
empty series, and the membership characterisation holds for the example
point of value 12. -/
theorem detectSpikes_classification_witness :
    detectSpikesWith
        { upperThreshold := 5, lowerThreshold := -5, upperColor := "#e74c3c",
          lowerColor := "#3498db", enabled := false } [⟨0, 12⟩] = ([], [])
  ∧ ((⟨0, 12⟩ : TemperatureDataPoint) ∈ (detectSpikes [⟨0, 12⟩]).1 ↔
       (⟨0, 12⟩ : TemperatureDataPoint) ∈ [(⟨0, 12⟩ : TemperatureDataPoint)]
         ∧ (12 : ℚ) > 5) :=
  ⟨detectSpikes_classification.2.2.2.1 _ rfl _,
   detectSpikes_classification.1 [⟨0, 12⟩] ⟨0, 12⟩⟩

/-- C10: a point whose value equals the upper threshold 5 or the lower
threshold -5 is classified as neither an upper nor a lower spike (both
comparisons are strict), and both output series are sublists of the input,
hence preserve its relative order. -/
theorem detectSpikes_boundary_and_order :
    (∀ (data : List TemperatureDataPoint) (p : TemperatureDataPoint),
       p.temperature = 5 ∨ p.temperature = -5 →
       p ∉ (detectSpikes data).1 ∧ p ∉ (detectSpikes data).2)
  ∧ (∀ data : List TemperatureDataPoint,
       (detectSpikes data).1.Sublist data ∧ (detectSpikes data).2.Sublist data) := by
  constructor
  · intro data p hp
    constructor
    · intro hmem
      have := (mem_upperSpikes_iff data p).mp hmem
      rcases hp with h | h <;> rw [h] at this <;> linarith [this.2]
    · intro hmem
      have := (mem_lowerSpikes_iff data p).mp hmem
      rcases hp with h | h <;> rw [h] at this <;> linarith [this.2]
  · intro data
    rw [detectSpikes_eq_filter]
    exact ⟨List.filter_sublist data, List.filter_sublist data⟩

/-- Witness for C10 at a concrete input: the boundary points of values 5 and
-5 land in neither output series, and both outputs are sublists of the input. -/
theorem detectSpikes_boundary_and_order_witness :
    ((⟨0, 5⟩ : TemperatureDataPoint) ∉ (detectSpikes [⟨0, 5⟩, ⟨1, -5⟩]).1
       ∧ (⟨0, 5⟩ : TemperatureDataPoint) ∉ (detectSpikes [⟨0, 5⟩, ⟨1, -5⟩]).2)
  ∧ ((⟨1, -5⟩ : TemperatureDataPoint) ∉ (detectSpikes [⟨0, 5⟩, ⟨1, -5⟩]).1
       ∧ (⟨1, -5⟩ : TemperatureDataPoint) ∉ (detectSpikes [⟨0, 5⟩, ⟨1, -5⟩]).2)
  ∧ ((detectSpikes [⟨0, 5⟩, ⟨1, -5⟩]).1.Sublist [⟨0, 5⟩, ⟨1, -5⟩]
       ∧ (detectSpikes [⟨0, 5⟩, ⟨1, -5⟩]).2.Sublist [⟨0, 5⟩, ⟨1, -5⟩]) :=
  ⟨detectSpikes_boundary_and_order.1 [⟨0, 5⟩, ⟨1, -5⟩] ⟨0, 5⟩ (Or.inl rfl),
   detectSpikes_boundary_and_order.1 [⟨0, 5⟩, ⟨1, -5⟩] ⟨1, -5⟩ (Or.inr rfl),
   detectSpikes_boundary_and_order.2 [⟨0, 5⟩, ⟨1, -5⟩]⟩

theorem getZoomLevelAux_eq_find (r : ℚ) :
    ∀ t : List (ℚ × String),
      getZoomLevelAux t r =
        ((t.find? fun entry => r ≤ entry.1).map Prod.snd).getD "1 Week" := by
  intro t
  induction t with
  | nil => rfl
  | cons e rest ih =>
    by_cases h : r ≤ e.1
    · simp [getZoomLevelAux, List.find?_cons, h]
    · simp [getZoomLevelAux, List.find?_cons, h, ih]

/-- C3: `getZoomLevel` returns the label of the first entry of the ascending
table whose ceiling is ≥ the span ratio, falling back to the catch-all coarse
label "1 Week"; the table is strictly ascending by ceiling; and on the inputs
1.0, 0.5, 0.1, 0.02 it returns "1 Week", "1 Hour", "5 Minutes", "30 Seconds". -/
theorem getZoomLevel_matches_table :
    (∀ r : ℚ, getZoomLevel r = zoomLevelSpec r)
  ∧ List.Chain' (fun a b : ℚ × String => a.1 < b.1) ZOOM_LEVELS
  ∧ [(1 : ℚ), 0.5, 0.1, 0.02].map getZoomLevel =
      ["1 Week", "1 Hour", "5 Minutes", "30 Seconds"] := by
  refine ⟨fun r => getZoomLevelAux_eq_find r ZOOM_LEVELS, ?_, ?_⟩
  · norm_num [ZOOM_LEVELS, List.chain'_cons]
  · norm_num [getZoomLevel, getZoomLevelAux, ZOOM_LEVELS]

theorem zoomIdxAux_mono (r1 r2 : ℚ) (h : r1 ≤ r2) :
    ∀ t : List (ℚ × String), zoomIdxAux t r1 ≤ zoomIdxAux t r2 := by
  intro t
  induction t with
  | nil => exact Nat.le_refl 0
  | cons e rest ih =>
    by_cases h2 : r2 ≤ e.1
    · have h1 : r1 ≤ e.1 := le_trans h h2
      simp [zoomIdxAux, h1, h2]
    · by_cases h1 : r1 ≤ e.1
      · simp [zoomIdxAux, h1, h2]
      · simpa [zoomIdxAux, h1, h2] using ih

theorem getZoomLevelAux_eq_getD_zoomIdxAux (r : ℚ) :
    ∀ t : List (ℚ × String),
      getZoomLevelAux t r = (t.map Prod.snd).getD (zoomIdxAux t r) "1 Week" := by
  intro t
  induction t with
  | nil => rfl
  | cons e rest ih =>
    by_cases h : r ≤ e.1
    · simp [getZoomLevelAux, zoomIdxAux, h]
    · simp [getZoomLevelAux, zoomIdxAux, h, ih]

/-- C6: the zoom-to-granularity mapping is monotonic — for span ratios
r1 ≤ r2 the fineness index chosen for r1 is ≤ (finer or equal to) the one
chosen for r2, `getZoomLevel` answers from exactly that index of the table,
and a ratio equal to a table ceiling (0.5) resolves to that entry itself
("1 Hour", index 6) rather than the next coarser one. -/
theorem getZoomLevel_monotone :
    (∀ r1 r2 : ℚ, r1 ≤ r2 → zoomIdx r1 ≤ zoomIdx r2)
  ∧ (∀ r : ℚ,
       getZoomLevel r = (ZOOM_LEVELS.map Prod.snd).getD (zoomIdx r) "1 Week")
  ∧ zoomIdx 0.5 = 6 ∧ getZoomLevel 0.5 = "1 Hour" := by
  refine ⟨fun r1 r2 h => zoomIdxAux_mono r1 r2 h ZOOM_LEVELS,
    fun r => getZoomLevelAux_eq_getD_zoomIdxAux r ZOOM_LEVELS, ?_, ?_⟩
  · norm_num [zoomIdx, zoomIdxAux, ZOOM_LEVELS]
  · norm_num [getZoomLevel, getZoomLevelAux, ZOOM_LEVELS]

/-- Witness for C6 at concrete inputs: it yields monotonicity of the fineness
index between the ratios 0.1 and 0.5. -/
theorem getZoomLevel_monotone_witness : zoomIdx 0.1 ≤ zoomIdx 0.5 :=
  getZoomLevel_monotone.1 0.1 0.5 (by norm_num)

/-- Counterexample to C1: the live append of `updateChartData` is a plain
tail append with no duplicate handling, so appending two points that carry
the same timestamp (as two `Date.now()` reads within the same millisecond do)
leaves the buffer with a duplicated timestamp, violating strict sortedness. -/
theorem buffer_sorted_counterexample :
    ¬ StrictlySortedByTimestamp
        (runBufferOps [.appendLive ⟨5, 1⟩, .appendLive ⟨5, 2⟩]) := by
  decide

/-- C1 (amended): the buffer stays strictly sorted by timestamp (hence free
of duplicate timestamps) provided every live append carries a timestamp
strictly greater than all timestamps already in the buffer, and every
historical ingest (which replaces the buffer) supplies a chunk that is itself
strictly sorted. -/
theorem buffer_sorted_amended :
    (∀ (data : List TemperatureDataPoint) (p : TemperatureDataPoint),
       StrictlySortedByTimestamp data →
       (∀ q ∈ data, q.timestamp < p.timestamp) →
       StrictlySortedByTimestamp (updateChartData data p))
  ∧ (∀ (data chunk : List TemperatureDataPoint),
       StrictlySortedByTimestamp chunk →
       StrictlySortedByTimestamp (applyBufferOp data (.ingestHistorical chunk))) := by
  constructor
  · intro data p hsorted hmax
    unfold StrictlySortedByTimestamp updateChartData at *
    rw [List.pairwise_append]
    exact ⟨hsorted, List.pairwise_singleton _ _,
      fun a ha b hb => by rw [List.mem_singleton] at hb; subst hb; exact hmax a ha⟩
  · intro data chunk hchunk
    exact hchunk

/-- Witness for C1 (amended) at concrete inputs: appending a strictly newer
point to a sorted two-point buffer keeps it sorted, and ingesting a sorted
chunk yields a sorted buffer. -/
theorem buffer_sorted_amended_witness :
    StrictlySortedByTimestamp (updateChartData [⟨1, 0⟩, ⟨2, 0⟩] ⟨3, 0⟩)
  ∧ StrictlySortedByTimestamp
      (applyBufferOp [⟨9, 0⟩] (.ingestHistorical [⟨1, 0⟩, ⟨2, 0⟩])) :=
  ⟨buffer_sorted_amended.1 [⟨1, 0⟩, ⟨2, 0⟩] ⟨3, 0⟩ (by decide) (by decide),
   buffer_sorted_amended.2 [⟨9, 0⟩] [⟨1, 0⟩, ⟨2, 0⟩] (by decide)⟩

/-- Counterexample to C5: TemperatureChart.tsx performs no trim — every
update appends a point and removes none — so the buffer length is not
bounded by any constant: no bound `B` caps the buffer length across all
update ticks. -/
theorem buffer_bounded_counterexample :
    ¬ ∃ B : Nat, ∀ n : Nat, (bufferAfterUpdates n).length ≤ B := by
  rintro ⟨B, hB⟩
  have hlen : ∀ n : Nat, (bufferAfterUpdates n).length = n := by
    intro n
    induction n with
    | zero => rfl
    | succ n ih => simp [bufferAfterUpdates, updateChartData, ih]
  have := hB (B + 1)
  rw [hlen] at this
  omega

/-- C5 (amended): there is no trim — the buffer update never removes any
point (so in particular no point inside the visible span is ever dropped),
and each update grows the buffer by exactly one point, leaving its length
unbounded. -/
theorem buffer_no_trim_amended :
    (∀ (data : List TemperatureDataPoint) (p q : TemperatureDataPoint),
       q ∈ data → q ∈ updateChartData data p)
  ∧ (∀ (data : List TemperatureDataPoint) (p : TemperatureDataPoint),
       (updateChartData data p).length = data.length + 1) := by
  constructor
  · intro data p q hq
    exact List.mem_append_left _ hq
  · intro data p
    simp [updateChartData]

/-- Witness for C5 (amended) at concrete inputs: a point of the buffer
survives an update, and the update adds exactly one point. -/
theorem buffer_no_trim_amended_witness :
    (⟨1, 0⟩ : TemperatureDataPoint) ∈ updateChartData [⟨1, 0⟩] ⟨2, 0⟩
  ∧ (updateChartData [⟨1, 0⟩] ⟨2, 0⟩).length = 2 :=
  ⟨buffer_no_trim_amended.1 [⟨1, 0⟩] ⟨2, 0⟩ ⟨1, 0⟩ (by decide),
   buffer_no_trim_amended.2 [⟨1, 0⟩] ⟨2, 0⟩⟩

/-- Counterexample to C2: apiService.ts performs no cancellation or
supersession — after issuing request 1 and then request 2, the response of
request 2 arrives first, yet the late response of the superseded request 1 is
still applied (delivered to its caller) afterwards, so application follows
completion order, not issuance order. -/
theorem supersession_counterexample :
    appliedResponses
        [.issue 1, .issue 2,
         .complete 2 ⟨true, 200, [⟨2000, 21⟩]⟩,
         .complete 1 ⟨true, 200, [⟨1000, 20⟩]⟩] =
      [(2, [⟨2000, 21⟩]), (1, [⟨1000, 20⟩])]
  ∧ (1, [(⟨1000, 20⟩ : PlantTemperatureData)]) ∈
      appliedResponses
        [.issue 1, .issue 2,
         .complete 2 ⟨true, 200, [⟨2000, 21⟩]⟩,
         .complete 1 ⟨true, 200, [⟨1000, 20⟩]⟩] := by
  constructor
  · rfl
  · decide

/-- C2 (amended): no fetch response is ever discarded — every completion
whose response is ok is applied (returned to its caller), in completion
order, regardless of any request issued after it. -/
theorem supersession_amended :
    ∀ (trace : List FetchEvent) (id : Nat) (response : FetchResponse),
      FetchEvent.complete id response ∈ trace → response.ok = true →
      (id, response.data) ∈ appliedResponses trace := by
  intro trace
  induction trace with
  | nil => intro id response h _; exact absurd h (List.not_mem_nil _)
  | cons ev rest ih =>
    intro id response hmem hok
    rcases List.mem_cons.mp hmem with heq | htail
    · subst heq
      simp [appliedResponses, getHistoricalTemperatureData, hok]
    · cases ev with
      | issue j => simpa [appliedResponses] using ih id response htail hok
      | complete j r =>
        have htl := ih id response htail hok
        unfold appliedResponses
        cases hr : getHistoricalTemperatureData r with
        | ok d => exact List.mem_cons_of_mem _ htl
        | error e => exact htl

/-- Witness for C2 (amended) at a concrete trace: the ok response of the
first-issued request is applied even though a second request was issued
before it completed. -/
theorem supersession_amended_witness :
    (1, [(⟨1000, 20⟩ : PlantTemperatureData)]) ∈
      appliedResponses
        [.issue 1, .issue 2,
         .complete 2 ⟨true, 200, [⟨2000, 21⟩]⟩,
         .complete 1 ⟨true, 200, [⟨1000, 20⟩]⟩] :=
  supersession_amended _ 1 ⟨true, 200, [⟨1000, 20⟩]⟩ (by decide) rfl

/-- Counterexample to C7: the request `getHistoricalTemperatureData` issues
carries no range or granularity parameter — its URL is the fixed historical
endpoint — and carries no `AbortSignal`, so no external abort affects it:
the operation does not support cancellation of an in-flight request. -/
theorem fetchHistory_signature_counterexample :
    historicalRequest.url = "http://localhost:5142/api/temperature/historical"
  ∧ historicalRequest.signal = none
  ∧ abortAffects historicalRequest 0 = false := by
  refine ⟨?_, rfl, rfl⟩
  rfl

/-- C7 (amended): the historical provider takes no range or granularity
parameters — it always requests the fixed endpoint
`baseUrl ++ "/api/temperature/historical"` with no `AbortSignal` (hence no
external cancellation) — and returns the full `data` series of an ok
response, propagating an error on a non-ok status. -/
theorem fetchHistory_amended :
    historicalRequest.url = baseUrl ++ "/api/temperature/historical"
  ∧ historicalRequest.signal = none
  ∧ (∀ sig : Nat, abortAffects historicalRequest sig = false)
  ∧ (∀ response : FetchResponse, response.ok = true →
       getHistoricalTemperatureData response = .ok response.data)
  ∧ (∀ response : FetchResponse, response.ok = false →
       getHistoricalTemperatureData response =
         .error ("HTTP error! status: " ++ toString response.status)) := by
  refine ⟨rfl, rfl, fun sig => rfl, ?_, ?_⟩
  · intro response hok
    simp [getHistoricalTemperatureData, hok]
  · intro response hok
    simp [getHistoricalTemperatureData, hok]

/-- Witness for C7 (amended) at concrete inputs: an ok response yields its
data array, a 500 response yields the thrown error message. -/
theorem fetchHistory_amended_witness :
    getHistoricalTemperatureData ⟨true, 200, [⟨1000, 20⟩]⟩ =
      .ok [⟨1000, 20⟩]
  ∧ getHistoricalTemperatureData ⟨false, 500, []⟩ =
      .error "HTTP error! status: 500"
  ∧ abortAffects historicalRequest 3 = false :=
  ⟨fetchHistory_amended.2.2.2.1 ⟨true, 200, [⟨1000, 20⟩]⟩ rfl,
   fetchHistory_amended.2.2.2.2 ⟨false, 500, []⟩ rfl,
   fetchHistory_amended.2.2.1 3⟩

/-- Invariant of the service state: exactly one `ReceivePlantTemperature`
handler is registered when the connection is `Connected` (none before), and
the `listeners` set holds no duplicates. -/
def SignalRServiceInv (s : SignalRServiceState) : Prop :=
  s.handlers = (if s.connState = HubConnectionState.Connected then 1 else 0)
  ∧ s.listeners.Nodup

theorem applySignalROp_inv (s : SignalRServiceState) (op : SignalROp)
    (h : SignalRServiceInv s) : SignalRServiceInv (applySignalROp s op) := by
  obtain ⟨hh, hn⟩ := h
  cases op with
  | start b =>
    by_cases hc : s.connState = HubConnectionState.Connected
    · simpa [applySignalROp, startConnection, hc] using ⟨hh, hn⟩
    · cases b with
      | true =>
        refine ⟨?_, by simpa [applySignalROp, startConnection, hc] using hn⟩
        simp [applySignalROp, startConnection, hc] at hh ⊢
        omega
      | false => simpa [applySignalROp, startConnection, hc] using ⟨hh, hn⟩
  | addListener cb =>
    by_cases hm : cb ∈ s.listeners
    · simpa [applySignalROp, onPlantTemperatureReceived, hm] using ⟨hh, hn⟩
    · refine ⟨by simpa [applySignalROp, onPlantTemperatureReceived, hm] using hh, ?_⟩
      simp [applySignalROp, onPlantTemperatureReceived, hm, List.nodup_append, hn]
  | dropListener cb =>
    exact ⟨by simpa [applySignalROp, removeListener] using hh,
      by simpa [applySignalROp, removeListener] using hn.erase cb⟩

theorem foldl_applySignalROp_inv (ops : List SignalROp) :
    ∀ s : SignalRServiceState, SignalRServiceInv s →
      SignalRServiceInv (ops.foldl applySignalROp s) := by
  induction ops with
  | nil => intro s h; exact h
  | cons op rest ih =>
    intro s h
    exact ih _ (applySignalROp_inv s op h)

theorem runSignalROps_inv (ops : List SignalROp) :
    SignalRServiceInv (runSignalROps ops) :=
  foldl_applySignalROp_inv ops signalRServiceInit ⟨rfl, List.nodup_nil⟩

/-- C8: `startConnection` is idempotent once connected — calling it while the
connection state is `Connected` returns with the state (connection state,
registered handlers, listeners) unchanged — and consequently, in every state
reachable by the public operations of the service, a received point is
delivered to each registered listener exactly once. -/
theorem startConnection_idempotent :
    (∀ (b : Bool) (s : SignalRServiceState),
       s.connState = HubConnectionState.Connected → startConnection b s = s)
  ∧ (∀ (ops : List SignalROp) (cb : Nat),
       (runSignalROps ops).connState = HubConnectionState.Connected →
       cb ∈ (runSignalROps ops).listeners →
       deliveriesTo (runSignalROps ops) cb = 1) := by
  constructor
  · intro b s hc
    simp [startConnection, hc]
  · intro ops cb hc hm
    obtain ⟨hh, hn⟩ := runSignalROps_inv ops
    unfold deliveriesTo
    rw [hh, if_pos hc, one_mul]
    exact List.count_eq_one_of_mem hn hm

/-- Witness for C8 at concrete inputs: a second `startConnection` on a
connected state is the identity, and after starting and registering listener
7 a received point is delivered to it exactly once. -/
theorem startConnection_idempotent_witness :
    startConnection true ⟨HubConnectionState.Connected, 1, [7]⟩ =
      ⟨HubConnectionState.Connected, 1, [7]⟩
  ∧ deliveriesTo (runSignalROps [.start true, .addListener 7]) 7 = 1 :=
  ⟨startConnection_idempotent.1 true ⟨HubConnectionState.Connected, 1, [7]⟩ rfl,
   startConnection_idempotent.2 [.start true, .addListener 7] 7 rfl (by decide)⟩

/-- Counterexample to C9: the `SignalRService` class exposes no stop
operation — none of its public operations (`startConnection`,
`onPlantTemperatureReceived`, `removeListener`) ever releases an established
connection, so there is nothing for unmount to invoke that would stop the
live feed. -/
theorem stop_missing_counterexample :
    ¬ ∃ op : SignalROp,
        (applySignalROp ⟨HubConnectionState.Connected, 1, [7]⟩ op).connState =
          HubConnectionState.Disconnected := by
  rintro ⟨op, h⟩
  cases op with
  | start b => simp [applySignalROp, startConnection] at h
  | addListener cb =>
    simp only [applySignalROp, onPlantTemperatureReceived] at h
    split at h <;> simp at h
  | dropListener cb => simp [applySignalROp, removeListener] at h

/-- C9 (amended): the service exposes no stop operation — no public
operation ever moves an established connection out of `Connected` — but
individual listeners can be detached: `removeListener` is safe to call
repeatedly (a second removal of the same callback is a no-op), and after a
callback is removed, a received point fires it zero times. -/
theorem removeListener_teardown_amended :
    (∀ (op : SignalROp) (s : SignalRServiceState),
       s.connState = HubConnectionState.Connected →
       (applySignalROp s op).connState = HubConnectionState.Connected)
  ∧ (∀ (ops : List SignalROp) (cb : Nat),
       runSignalROps (ops ++ [.dropListener cb, .dropListener cb]) =
         runSignalROps (ops ++ [.dropListener cb]))
  ∧ (∀ (ops : List SignalROp) (cb : Nat),
       deliveriesTo (runSignalROps (ops ++ [.dropListener cb])) cb = 0) := by
  have hdrop : ∀ (ops : List SignalROp) (cb : Nat),
      cb ∉ (runSignalROps (ops ++ [.dropListener cb])).listeners := by
    intro ops cb
    obtain ⟨_, hn⟩ := runSignalROps_inv ops
    simp only [runSignalROps, List.foldl_append, List.foldl_cons, List.foldl_nil]
    intro hmem
    have := (hn.mem_erase_iff).mp hmem
    exact this.1 rfl
  refine ⟨?_, ?_, ?_⟩
  · intro op s hc
    cases op with
    | start b => simp [applySignalROp, startConnection, hc]
    | addListener cb =>
      simp only [applySignalROp, onPlantTemperatureReceived]
      split <;> simpa using hc
    | dropListener cb => simpa [applySignalROp, removeListener] using hc
  · intro ops cb
    have h := hdrop ops cb
    simp only [runSignalROps, List.foldl_append, List.foldl_cons,
      List.foldl_nil, applySignalROp, removeListener] at h ⊢
    simp [List.erase_of_not_mem h]
  · intro ops cb
    have h := hdrop ops cb
    unfold deliveriesTo
    rw [List.count_eq_zero.mpr h, Nat.mul_zero]

/-- Witness for C9 (amended) at concrete inputs: a connected state stays
connected under a further operation, a double removal equals a single one,
and after removing listener 7 a received point is delivered to it zero
times. -/
theorem removeListener_teardown_amended_witness :
    (applySignalROp ⟨HubConnectionState.Connected, 1, [7]⟩ (.addListener 8)).connState =
      HubConnectionState.Connected
  ∧ runSignalROps [.start true, .addListener 7, .dropListener 7, .dropListener 7] =
      runSignalROps [.start true, .addListener 7, .dropListener 7]
  ∧ deliveriesTo (runSignalROps [.start true, .addListener 7, .dropListener 7]) 7 = 0 :=
  ⟨removeListener_teardown_amended.1 (.addListener 8)
      ⟨HubConnectionState.Connected, 1, [7]⟩ rfl,
   removeListener_teardown_amended.2.1 [.start true, .addListener 7] 7,
   removeListener_teardown_amended.2.2 [.start true, .addListener 7] 7⟩
